import Mathlib

/-!
Verification development for `src/sage/structure/category_object.pyx`.

The Python/Cython source is shallowly embedded: each relevant function of the
source file becomes a Lean definition operating on explicit state; Python
exceptions become an explicit error type returned through `Except`.
-/

set_option autoImplicit false

/-- The Python exceptions raised by the code under study, carrying their
message strings.  The spec's abstract taxonomy maps onto these:
`ValidationError` covers the `valueError`/`indexError`/`typeError` raised
during name validation, `StateError` the `valueError` raised by
`variable_names` on unset names, and `AttributeError` is `attributeError`. -/
inductive PyErr where
  | valueError (msg : String)
  | typeError (msg : String)
  | indexError (msg : String)
  | keyError (msg : String)
  | attributeError (msg : String)
  deriving DecidableEq

/-- A Python value as fed to the name-validation helpers: either a string, or
some non-string value carried by its display string (`str`/`repr` form).
Only the string/non-string distinction is observable in `certify_names`. -/
inductive PyVal where
  | str (s : String)
  | other (display : String)
  deriving DecidableEq

/-- Python `str(x)` for the values we model. -/
def pyStr : PyVal → String
  | .str s => s
  | .other d => d

/-- Python `repr` of a string, as used by the `format` calls in the error
messages of `certify_names`: single quotes by default, double quotes when the
string contains a single quote but no double quote (escapes are not needed for
the names that occur here). -/
def pyRepr (s : String) : String :=
  if s.data.contains '\x27' && !(s.data.contains '\x22') then
    "\x22" ++ s ++ "\x22"
  else
    "\x27" ++ s ++ "\x27"

/-- Python `str.strip()` on the character list: drop whitespace on both ends. -/
def stripChars (cs : List Char) : List Char :=
  ((cs.dropWhile Char.isWhitespace).reverse.dropWhile Char.isWhitespace).reverse

/-- Python `str.strip()`. -/
def pyStrip (s : String) : String :=
  String.mk (stripChars s.data)

/-- Python `str.split(sep)` restricted to the single-character separator `,`
used by `normalize_names`.  Always returns at least one segment. -/
def splitComma (cs : List Char) : List (List Char) :=
  match cs with
  | [] => [[]]
  | c :: rest =>
    let r := splitComma rest
    if c = ',' then [] :: r
    else
      match r with
      | h :: t => (c :: h) :: t
      | [] => [[c]]

/-- The non-underscore characters of a name, as produced by
`N.replace("_", "")` in `certify_names`. -/
def nonUnderscore (s : String) : List Char :=
  s.data.filter (fun c => c != '_')

/-- Python `N.replace("_", "").isalnum()`: nonempty after dropping
underscores, and every remaining character alphanumeric.  (`"".isalnum()` is
`False` in Python, hence the nonemptiness conjunct.) -/
def alnum_ok (s : String) : Bool :=
  !(nonUnderscore s).isEmpty && (nonUnderscore s).all Char.isAlphanum

/-- Python `N[0].isalpha()` guarded by nonemptiness. -/
def head_alpha (s : String) : Bool :=
  match s.data with
  | [] => false
  | c :: _ => c.isAlpha

/-- The loop body of `certify_names` (source lines 1101-1114): iterate over
the candidate names keeping the set `seen` of names already accepted, raising
on the first violation, in the source's order of checks: non-string, empty,
not alphanumeric modulo underscores, not starting with a letter, duplicate.
The `type(N)` part of the non-string message is elided (types are not
modelled). -/
def certify_go : List PyVal → List String → Except PyErr Bool
  | [], _ => .ok true
  | PyVal.other r :: _, _ =>
      .error (.typeError ("variable name " ++ r ++ " must be a string"))
  | PyVal.str s :: rest, seen =>
      if s = "" then
        .error (.valueError "variable name must be nonempty")
      else if alnum_ok s = false then
        .error (.valueError ("variable name " ++ pyRepr s ++ " is not alphanumeric"))
      else if head_alpha s = false then
        .error (.valueError ("variable name " ++ pyRepr s ++ " does not start with a letter"))
      else if s ∈ seen then
        .error (.valueError ("variable name " ++ pyRepr s ++ " appears more than once"))
      else
        certify_go rest (s :: seen)

/-- `certify_names(names)` (source lines 1065-1115): check that the names are
valid variable names, returning `True`, or raise on the first violation. -/
def certify_names (names : List PyVal) : Except PyErr Bool :=
  certify_go names []

/-- Modelled from the spec: `sage.misc.defaults.variable_names` (imported by
`normalize_names` but not part of src/) — a string prefix is "expanded to
`expected_count` names by suffixing indices 0..expected_count-1"; the
`n = 1` case returns the bare name, as pinned by the `normalize_names`
doctests in the source (`nn(1, 'a')` is `('a',)`, and `nn(1, 'foo@')` fails
on `'foo@'` itself, not `'foo@0'`). -/
def default_variable_names (n : Nat) (name : String) : List String :=
  if n = 1 then [name]
  else (List.range n).map (fun i => name ++ toString i)

/-- The name specification accepted by `normalize_names`: a list/tuple of
values, or a single value (interpreted via its string form). -/
inductive NamesInput where
  | list (xs : List PyVal)
  | single (v : PyVal)

/-- The common tail of `normalize_names` (source lines 1059-1062): certify
the names, check the count against `ngens` when it is known (nonnegative),
and return the tuple. -/
def names_tail (ngens : Int) (ns : List String) : Except PyErr (List String) :=
  match certify_names (ns.map PyVal.str) with
  | .error e => .error e
  | .ok _ =>
    if 0 ≤ ngens ∧ (ns.length : Int) ≠ ngens then
      .error (.indexError "the number of names must equal the number of generators")
    else
      .ok ns

/-- The `isinstance(names, basestring)` block of `normalize_names` (source
lines 1052-1057), reached when the spec is a string that was neither split on
commas nor split into single characters: with unknown `ngens` the string is
the single name, otherwise it is a prefix expanded by
`sage.misc.defaults.variable_names`; then the common tail runs. -/
def names_from_string (ngens : Int) (s : String) : Except PyErr (List String) :=
  if ngens < 0 then
    names_tail ngens [s]
  else
    names_tail ngens (default_variable_names ngens.toNat s)

/-- `normalize_names(ngens, names)` (source lines 945-1062).  A list or tuple
is mapped through `str(x).strip()`; a single value is converted to its string
form and then: split on commas if it contains one; split into one-character
names when `ngens > 1` matches its length and the characters certify (only a
`ValueError` from that certification falls through to the prefix case);
otherwise treated as a single name (`ngens < 0`) or as a prefix. -/
def normalize_names (ngens : Int) (names : NamesInput) : Except PyErr (List String) :=
  match names with
  | .list xs => names_tail ngens (xs.map (fun x => pyStrip (pyStr x)))
  | .single v =>
    let s := pyStr v
    if s.data.contains ',' then
      names_tail ngens ((splitComma s.data).map (fun cs => pyStrip (String.mk cs)))
    else if ngens > 1 ∧ (s.length : Int) = ngens then
      match certify_names (s.data.map (fun c => PyVal.str (String.mk [c]))) with
      | .ok _ => names_tail ngens (s.data.map (fun c => String.mk [c]))
      | .error (.valueError _) => names_from_string ngens s
      | .error e => .error e
    else
      names_from_string ngens s

/-!
The `CategoryObject` state.  `C` is the (external) category type, `B` the
type of base objects, `A` the type of resolved/bound attribute values; the
category lattice's `join` (external `Category.join`) is passed explicitly as
a function `List C → C`, and a category's behavior table (its
`parent_class`) as a function `C → String → Option A` giving the attribute
of that class already bound against the instance, or `none` when absent.
-/

/-- The per-instance state of a `CategoryObject`: the cdef attributes
`_category`, `_base`, `_names` (all `None` before assignment), the
per-instance attribute cache `__cached_methods` (a dict, modelled as an
association list), and the memoized hash `_hash_value` (`-1` meaning "not
yet computed"). -/
structure CategoryObject (C B A : Type) where
  _category : Option C
  _base : Option B
  _names : Option (List String)
  cached_methods : List (String × A)
  _hash_value : Int
  deriving DecidableEq

/-- `__cinit__` (source lines 150-152): a freshly allocated instance has an
empty attribute cache and hash `-1`; the cdef object attributes start as
`None`. -/
def cinit_state {C B A : Type} : CategoryObject C B A :=
  { _category := none, _base := none, _names := none,
    cached_methods := [], _hash_value := -1 }

/-- Python dict read `d[k]` on the attribute cache, `none` for a missing key. -/
def dict_get {A : Type} (d : List (String × A)) (k : String) : Option A :=
  match d with
  | [] => none
  | (k2, v) :: rest => if k2 = k then some v else dict_get rest k

/-- Python dict write `d[k] = v` on the attribute cache. -/
def dict_set {A : Type} (d : List (String × A)) (k : String) (v : A) : List (String × A) :=
  match d with
  | [] => [(k, v)]
  | (k2, v2) :: rest => if k2 = k then (k, v) :: rest else (k2, v2) :: dict_set rest k v

/-- A category argument as passed to `_init_category_` / `_refine_category_`:
a single category or a list/tuple of categories. -/
inductive CatInput (C : Type) where
  | single (c : C)
  | list (cs : List C)

/-- `_init_category_(category)` (source lines 154-189) for an explicitly
given category: a list or tuple is combined by `Category.join`, then stored.
(The deprecated `category is None` path, which calls `guess_category` and
probes the object by external duck typing, is outside the modelled claims.) -/
def _init_category_ {C B A : Type} (join : List C → C)
    (obj : CategoryObject C B A) (category : CatInput C) : CategoryObject C B A :=
  match category with
  | .list cs => { obj with _category := some (join cs) }
  | .single c => { obj with _category := some c }

/-- `_refine_category_(category)` (source lines 191-230): with no category
set, behave as `_init_category_`; otherwise wrap a single category into a
list and replace the category by
`self._category.join([self._category] + list(category))`. -/
def _refine_category_ {C B A : Type} (join : List C → C)
    (obj : CategoryObject C B A) (category : CatInput C) : CategoryObject C B A :=
  match obj._category with
  | none => _init_category_ join obj category
  | some cur =>
    let cats := match category with
      | .single c => [c]
      | .list cs => cs
    { obj with _category := some (join ([cur] ++ cats)) }

/-- Modelled from the spec: the cross-class fetch `getattr_from_other_class`
(from `sage.cpython.getattr`, declared but not defined in src/) — "search the
behavior table (and its own superclass chain) for `name`; if found ... bind
it to `self` ...; if not found, fail with `AttributeError("no attribute " +
name)`".  `search` is the bound-attribute lookup of the chosen class. -/
def getattr_from_other_class {A : Type} (search : String → Option A)
    (name : String) : Except PyErr A :=
  match search name with
  | some a => .ok a
  | none => .error (.attributeError ("no attribute " ++ name))

/-- `getattr_from_category(name)` (source lines 856-871): return the cached
attribute on a cache hit; on a miss choose the lookup class — `type` (which
yields no category attribute, so the fetch fails) when `_category` is
`None`, else the category's `parent_class` behavior table — perform the
cross-class fetch, store a successful result in the cache and return it.
The pair returned is (result, state after the call). -/
def getattr_from_category {C B A : Type} (table : C → String → Option A)
    (obj : CategoryObject C B A) (name : String) :
    Except PyErr A × CategoryObject C B A :=
  match dict_get obj.cached_methods name with
  | some attr => (.ok attr, obj)
  | none =>
    let search : String → Option A :=
      match obj._category with
      | none => fun _ => none
      | some c => table c
    match getattr_from_other_class search name with
    | .ok attr =>
        (.ok attr, { obj with cached_methods := dict_set obj.cached_methods name attr })
    | .error e => (.error e, obj)

/-- `_assign_names(names, normalize=True, ngens=None)` (source lines
433-470), on the default normalizing path used by the spec claims: `None` is
a no-op; otherwise the spec is normalized with `ngens` defaulting to `-1`
(unknown), a conflicting reassignment raises `ValueError`, and the
(already-tuple) normalized names are stored.  (The `normalize=False` branch,
which stores the raw argument after tuple coercion, is not exercised by any
claim.) -/
def _assign_names {C B A : Type} (obj : CategoryObject C B A)
    (names : Option NamesInput) (ngens : Option Int) :
    Except PyErr (CategoryObject C B A) :=
  match names with
  | none => .ok obj
  | some spec =>
    match normalize_names (ngens.getD (-1)) spec with
    | .error e => .error e
    | .ok ns =>
      match obj._names with
      | some t =>
        if ns ≠ t then
          .error (.valueError "variable names cannot be changed after object creation.")
        else
          .ok { obj with _names := some ns }
      | none => .ok { obj with _names := some ns }

/-- `variable_names()` (source lines 472-495): the stored names, or a
`ValueError` (the spec's `StateError`) when never assigned. -/
def variable_names {C B A : Type} (obj : CategoryObject C B A) :
    Except PyErr (List String) :=
  match obj._names with
  | some ns => .ok ns
  | none => .error (.valueError "variable names have not yet been set using self._assign_names(...)")

/-- `__hash__` (source lines 769-788): memoize `hash(repr(self))` (passed in
as `reprHash`, repr being external) in `_hash_value`, computing it only when
the stored value is the sentinel `-1`. -/
def hash_method {C B A : Type} (reprHash : Int) (obj : CategoryObject C B A) :
    Int × CategoryObject C B A :=
  if obj._hash_value = -1 then (reprHash, { obj with _hash_value := reprHash })
  else (obj._hash_value, obj)

/-- The dict produced by `__getstate__` / consumed by `__setstate__`.  Each
authoritative field is doubly optional: the outer `Option` is key presence
in the dict (`none` = `KeyError` on access), the inner one Python `None`.
Entries copied from `self.__dict__` are not modelled (a plain
`CategoryObject` is a cdef class without an instance dict). -/
structure PickleRecord (C B : Type) where
  category_key : Option (Option C)
  base_key : Option (Option B)
  names_key : Option (Option (List String))
  version_key : Option Int
  deriving DecidableEq

/-- `__getstate__` (source lines 716-731): emit `_category`, `_base`,
`_names` and `_pickle_version = 1`. -/
def getstate {C B A : Type} (obj : CategoryObject C B A) : PickleRecord C B :=
  { category_key := some obj._category,
    base_key := some obj._base,
    names_key := some obj._names,
    version_key := some 1 }

/-- `__setstate__(d)` (source lines 733-767): read the version (a missing
key means the legacy version 0).  Version 1 adopts the pickled category when
the object has none, joins it with the current one otherwise, and restores
`_base` and `_names` (a missing key is a `KeyError`, re-raised by the outer
handler).  Version 0 restores only `_base` and `_names`, swallowing a
`KeyError` — so a present `_base` is kept even when `_names` is missing.
Any other version runs no branch at all.  The trailing `self.__dict__ = d`
raises `AttributeError` on a cdef instance, which is swallowed. -/
def setstate {C B A : Type} (join : List C → C) (obj : CategoryObject C B A)
    (d : PickleRecord C B) : Except PyErr (CategoryObject C B A) :=
  let version : Int := d.version_key.getD 0
  if version = 1 then
    match d.category_key with
    | none => .error (.keyError "_category")
    | some catv =>
      let obj1 : CategoryObject C B A :=
        match catv with
        | none => obj
        | some newc =>
          match obj._category with
          | none => { obj with _category := some newc }
          | some cur => { obj with _category := some (join [cur, newc]) }
      match d.base_key with
      | none => .error (.keyError "_base")
      | some b =>
        match d.names_key with
        | none => .error (.keyError "_names")
        | some ns => .ok { obj1 with _base := b, _names := ns }
  else if version = 0 then
    match d.base_key with
    | none => .ok obj
    | some b =>
      match d.names_key with
      | none => .ok { obj with _base := b }
      | some ns => .ok { obj with _base := b, _names := ns }
  else
    .ok obj

/-- Restoring a persisted record: the pickling protocol allocates a fresh
instance (running `__cinit__`, source lines 150-152, so the attribute cache
is empty and the hash sentinel is `-1`) and then calls `__setstate__` on it. -/
def restore_state {C B A : Type} (join : List C → C) (d : PickleRecord C B) :
    Except PyErr (CategoryObject C B A) :=
  setstate join cinit_state d

instance {e a : Type} [DecidableEq e] [DecidableEq a] : DecidableEq (Except e a) := fun x y =>
  match x, y with
  | .ok v, .ok w =>
      if h : v = w then .isTrue (by rw [h]) else .isFalse (by intro hc; cases hc; exact h rfl)
  | .error v, .error w =>
      if h : v = w then .isTrue (by rw [h]) else .isFalse (by intro hc; cases hc; exact h rfl)
  | .ok _, .error _ => .isFalse (by intro hc; cases hc)
  | .error _, .ok _ => .isFalse (by intro hc; cases hc)

/-! Helper lemmas. -/

theorem dict_get_set_self {A : Type} (d : List (String × A)) (k : String) (v : A) :
    dict_get (dict_set d k v) k = some v := by
  induction d with
  | nil => simp [dict_set, dict_get]
  | cons p rest ih =>
    obtain ⟨k2, v2⟩ := p
    by_cases h : k2 = k
    · simp [dict_set, dict_get, h]
    · simp [dict_set, dict_get, h, ih]

theorem certify_go_ok_val (names : List PyVal) :
    ∀ (seen : List String) (b : Bool), certify_go names seen = .ok b → b = true := by
  induction names with
  | nil =>
    intro seen b h
    simp only [certify_go] at h
    injection h with h
    exact h.symm
  | cons v rest ih =>
    intro seen b h
    cases v with
    | other r => simp [certify_go] at h
    | str s =>
      simp only [certify_go] at h
      split_ifs at h
      exact ih _ _ h

theorem certify_go_ok_iff (names : List PyVal) :
    ∀ seen : List String,
      certify_go names seen = .ok true ↔
        ((∀ v ∈ names, ∃ s, v = PyVal.str s ∧ s ≠ "" ∧ alnum_ok s = true ∧ head_alpha s = true) ∧
         (names.map pyStr).Nodup ∧ ∀ t ∈ names.map pyStr, t ∉ seen) := by
  induction names with
  | nil =>
    intro seen
    simp [certify_go]
  | cons v rest ih =>
    intro seen
    cases v with
    | other r =>
      apply iff_of_false
      · simp [certify_go]
      · rintro ⟨h1, -, -⟩
        obtain ⟨s, hs, -⟩ := h1 (PyVal.other r) (List.mem_cons_self _ _)
        exact PyVal.noConfusion hs
    | str s =>
      simp only [certify_go]
      split_ifs with h0 h1 h2 h3
      · apply iff_of_false
        · simp
        · rintro ⟨h1', -, -⟩
          obtain ⟨s', hs, hne, -, -⟩ := h1' (PyVal.str s) (List.mem_cons_self _ _)
          cases hs; exact hne h0
      · apply iff_of_false
        · simp
        · rintro ⟨h1', -, -⟩
          obtain ⟨s', hs, -, ha, -⟩ := h1' (PyVal.str s) (List.mem_cons_self _ _)
          cases hs; rw [h1] at ha; exact Bool.noConfusion ha
      · apply iff_of_false
        · simp
        · rintro ⟨h1', -, -⟩
          obtain ⟨s', hs, -, -, ha⟩ := h1' (PyVal.str s) (List.mem_cons_self _ _)
          cases hs; rw [h2] at ha; exact Bool.noConfusion ha
      · apply iff_of_false
        · simp
        · rintro ⟨-, -, h3'⟩
          exact h3' s (by simp [pyStr]) h3
      · rw [ih (s :: seen)]
        have ha1 : alnum_ok s = true := by
          cases ha : alnum_ok s with
          | false => exact absurd ha h1
          | true => rfl
        have ha2 : head_alpha s = true := by
          cases ha : head_alpha s with
          | false => exact absurd ha h2
          | true => rfl
        constructor
        · rintro ⟨hall, hnd, hnotin⟩
          have hsnot : s ∉ rest.map pyStr := fun hmem => (hnotin s hmem) (List.mem_cons_self _ _)
          refine ⟨?_, ?_, ?_⟩
          · intro v hv
            rcases List.mem_cons.mp hv with hv | hv
            · exact ⟨s, hv, h0, ha1, ha2⟩
            · exact hall v hv
          · rw [List.map_cons, List.nodup_cons]
            exact ⟨hsnot, hnd⟩
          · intro t ht
            rw [List.map_cons, List.mem_cons] at ht
            rcases ht with ht | ht
            · rw [ht]; exact h3
            · intro htseen
              exact hnotin t ht (List.mem_cons_of_mem _ htseen)
        · rintro ⟨hall, hnd, hnotin⟩
          rw [List.map_cons, List.nodup_cons] at hnd
          refine ⟨?_, hnd.2, ?_⟩
          · intro v hv
            exact hall v (List.mem_cons_of_mem _ hv)
          · intro t ht
            rw [List.mem_cons]
            rintro (hts | htseen)
            · rw [hts] at ht; exact hnd.1 (by simpa [pyStr] using ht)
            · exact hnotin t (by rw [List.map_cons]; exact List.mem_cons_of_mem _ ht) htseen

theorem certify_names_ok_iff (names : List PyVal) :
    certify_names names = .ok true ↔
      ((∀ v ∈ names, ∃ s, v = PyVal.str s ∧ s ≠ "" ∧ alnum_ok s = true ∧ head_alpha s = true) ∧
       (names.map pyStr).Nodup) := by
  rw [certify_names, certify_go_ok_iff]
  simp

theorem names_tail_ok (n : Int) (l ns : List String) (h : names_tail n l = .ok ns) :
    ns = l ∧ certify_names (l.map PyVal.str) = .ok true ∧ (0 ≤ n → (l.length : Int) = n) := by
  unfold names_tail at h
  cases hc : certify_names (l.map PyVal.str) with
  | error e =>
    simp only [hc] at h
    exact Except.noConfusion h
  | ok b =>
    have hb : b = true := certify_go_ok_val _ _ _ hc
    simp only [hc] at h
    split_ifs at h with hcond
    · injection h with h
      refine ⟨h.symm, by rw [hb], ?_⟩
      intro hn
      by_contra hlen
      exact hcond ⟨hn, hlen⟩

theorem names_from_string_ok (n : Int) (s : String) (ns : List String)
    (h : names_from_string n s = .ok ns) :
    certify_names (ns.map PyVal.str) = .ok true ∧ (0 ≤ n → (ns.length : Int) = n) := by
  unfold names_from_string at h
  split_ifs at h with hneg
  · obtain ⟨hns, hc, hlen⟩ := names_tail_ok _ _ _ h
    exact ⟨by rw [hns]; exact hc, by rw [hns]; exact hlen⟩
  · obtain ⟨hns, hc, hlen⟩ := names_tail_ok _ _ _ h
    exact ⟨by rw [hns]; exact hc, by rw [hns]; exact hlen⟩

theorem normalize_names_ok (n : Int) (spec : NamesInput) (ns : List String)
    (h : normalize_names n spec = .ok ns) :
    certify_names (ns.map PyVal.str) = .ok true ∧ (0 ≤ n → (ns.length : Int) = n) := by
  cases spec with
  | list xs =>
    simp only [normalize_names] at h
    obtain ⟨hns, hc, hlen⟩ := names_tail_ok _ _ _ h
    exact ⟨by rw [hns]; exact hc, by rw [hns]; exact hlen⟩
  | single v =>
    simp only [normalize_names] at h
    split_ifs at h with hcomma hrun
    · obtain ⟨hns, hc, hlen⟩ := names_tail_ok _ _ _ h
      exact ⟨by rw [hns]; exact hc, by rw [hns]; exact hlen⟩
    · split at h
      · obtain ⟨hns, hc, hlen⟩ := names_tail_ok _ _ _ h
        exact ⟨by rw [hns]; exact hc, by rw [hns]; exact hlen⟩
      · exact names_from_string_ok _ _ _ h
      · exact Except.noConfusion h
    · exact names_from_string_ok _ _ _ h

/-- Claim C5: for every integer `n >= 0` and accepted spec shape,
`normalize_names(n, spec)`, when it succeeds, returns exactly `n` unique
names, each nonempty, starting with a letter, and containing only
alphanumeric characters or underscores; and the stated scenarios hold:
`normalize_names(3, "x,y,z") = ("x","y","z")`,
`normalize_names(2, "ab") = ("a","b")`, `normalize_names(-1, "a") = ("a",)`,
and `normalize_names(3, ["x","y"])` fails with the count-mismatch error (an
`IndexError` in the code, which the spec's `ValidationError` taxonomy covers
as "the resulting count disagrees with a known expected_count"). -/
theorem normalize_names_spec (n : Int) (spec : NamesInput) (ns : List String)
    (hn : 0 ≤ n) (hok : normalize_names n spec = .ok ns) :
    ((ns.length : Int) = n ∧ ns.Nodup ∧
      ∀ s ∈ ns, s ≠ "" ∧ (∀ c ∈ s.data, c.isAlphanum ∨ c = '_') ∧ head_alpha s = true) ∧
    normalize_names 3 (.single (.str "x,y,z")) = .ok ["x", "y", "z"] ∧
    normalize_names 2 (.single (.str "ab")) = .ok ["a", "b"] ∧
    normalize_names (-1) (.single (.str "a")) = .ok ["a"] ∧
    normalize_names 3 (.list [.str "x", .str "y"]) =
      .error (.indexError "the number of names must equal the number of generators") := by
  obtain ⟨hc, hlen⟩ := normalize_names_ok n spec ns hok
  obtain ⟨hall, hnd⟩ := (certify_names_ok_iff _).mp hc
  refine ⟨⟨hlen hn, ?_, ?_⟩, by decide, by decide, by decide, by decide⟩
  · have : (ns.map PyVal.str).map pyStr = ns := by
      rw [List.map_map]
      exact List.map_id'' (fun s => rfl) ns
    rw [this] at hnd
    exact hnd
  · intro s hs
    obtain ⟨s', heq, hne, halnum, hhead⟩ :=
      hall (PyVal.str s) (List.mem_map_of_mem PyVal.str hs)
    have hss : s = s' := by injection heq
    subst hss
    refine ⟨hne, ?_, hhead⟩
    intro c hcmem
    by_cases hcu : c = '_'
    · exact Or.inr hcu
    · have hmem : c ∈ nonUnderscore s := by
        rw [nonUnderscore, List.mem_filter]
        exact ⟨hcmem, by simp [hcu]⟩
      have hallan := (Bool.and_eq_true _ _).mp halnum |>.2
      exact Or.inl (List.all_eq_true.mp hallan c hmem)

/-- Claim C6: `certify_names` checks each candidate in order (non-string,
empty, non-alphanumeric-modulo-underscores, not starting with a letter,
duplicate), reports the first violation and validates the whole batch only
if every name passes: success is equivalent to every name being a valid
fresh string, and the concrete batches fail with exactly the stated first
error (`["\x27x"]` and `[3/2]` evidence the order of checks). -/
theorem certify_names_spec :
    (∀ names : List PyVal,
        certify_names names = .ok true ↔
          ((∀ v ∈ names, ∃ s, v = PyVal.str s ∧ s ≠ "" ∧ alnum_ok s = true ∧ head_alpha s = true) ∧
           (names.map pyStr).Nodup)) ∧
    certify_names [.str ""] = .error (.valueError "variable name must be nonempty") ∧
    certify_names [.str "_x"] =
      .error (.valueError "variable name \x27_x\x27 does not start with a letter") ∧
    certify_names [.str "x", .str "x"] =
      .error (.valueError "variable name \x27x\x27 appears more than once") ∧
    certify_names [.str "x\x27"] =
      .error (.valueError "variable name \x22x\x27\x22 is not alphanumeric") ∧
    certify_names [.str "\x27x"] =
      .error (.valueError "variable name \x22\x27x\x22 is not alphanumeric") ∧
    certify_names [.other "3/2"] =
      .error (.typeError "variable name 3/2 must be a string") :=
  ⟨certify_names_ok_iff, by decide, by decide, by decide, by decide, by decide, by decide⟩

/-- Witness for C6: instantiates the equivalence at a concrete valid batch. -/
theorem certify_names_spec_witness :
    (∀ v ∈ [PyVal.str "a", PyVal.str "b"],
        ∃ s, v = PyVal.str s ∧ s ≠ "" ∧ alnum_ok s = true ∧ head_alpha s = true) ∧
    (([PyVal.str "a", PyVal.str "b"]).map pyStr).Nodup :=
  (certify_names_spec.1 _).mp (by decide)

/-- Witness for C5: instantiates the theorem at `n = 3`, spec `"x,y,z"`. -/
theorem normalize_names_spec_witness :
    ((["x", "y", "z"].length : Int) = 3 ∧ List.Nodup ["x", "y", "z"] ∧
      ∀ s ∈ ["x", "y", "z"],
        s ≠ "" ∧ (∀ c ∈ s.data, c.isAlphanum ∨ c = '_') ∧ head_alpha s = true) :=
  (normalize_names_spec 3 (.single (.str "x,y,z")) ["x", "y", "z"]
    (by decide) (by decide)).1

/-- Claim C7: for an object whose names are already set to `t`, a second
`_assign_names` with a spec normalizing to the same value succeeds silently
and leaves the object unchanged; a spec normalizing to any different value
fails with `ValueError` (the spec's `ValidationError`); hence `_names`, once
set, never changes value under `_assign_names`. -/
theorem assign_names_write_once {C B A : Type} (obj : CategoryObject C B A)
    (t : List String) (spec : NamesInput) (ns : List String)
    (hset : obj._names = some t)
    (hok : normalize_names (-1) spec = .ok ns) :
    (ns = t → _assign_names obj (some spec) none = .ok obj) ∧
    (ns ≠ t → _assign_names obj (some spec) none =
       .error (.valueError "variable names cannot be changed after object creation.")) ∧
    ∀ (spec2 : NamesInput) (r : CategoryObject C B A),
      _assign_names obj (some spec2) none = .ok r → r._names = some t := by
  refine ⟨?_, ?_, ?_⟩
  · intro heq
    subst heq
    simp only [_assign_names, Option.getD_none, hok, hset]
    rw [if_neg (fun hc => hc rfl)]
    obtain ⟨oc, ob, onm, ocm, oh⟩ := obj
    simp only at hset
    simp [hset]
  · intro hne
    simp only [_assign_names, Option.getD_none, hok, hset]
    rw [if_pos hne]
  · intro spec2 r h
    simp only [_assign_names, Option.getD_none] at h
    cases h2 : normalize_names (-1) spec2 with
    | error e => simp only [h2] at h; exact Except.noConfusion h
    | ok ns2 =>
      simp only [h2, hset] at h
      by_cases hne : ns2 = t
      · rw [if_neg (fun hc => hc hne)] at h
        injection h with h
        rw [← h]
        simp [hne]
      · rw [if_pos hne] at h
        exact Except.noConfusion h

/-- Claim C8: `variable_names()` fails with the `ValueError` (the spec's
`StateError`) "variable names have not yet been set ..." when `_names` was
never assigned, returns the assigned tuple otherwise, and raises if and only
if the names are unset. -/
theorem variable_names_defined_iff {C B A : Type} (obj : CategoryObject C B A) :
    (obj._names = none →
      variable_names obj =
        .error (.valueError "variable names have not yet been set using self._assign_names(...)")) ∧
    (∀ ns, obj._names = some ns → variable_names obj = .ok ns) ∧
    ((∃ e, variable_names obj = .error e) ↔ obj._names = none) := by
  cases hn : obj._names with
  | none =>
    refine ⟨fun _ => by simp [variable_names, hn], ?_, ?_⟩
    · intro ns hns
      exact Option.noConfusion hns
    · exact ⟨fun _ => rfl, fun _ =>
        ⟨PyErr.valueError "variable names have not yet been set using self._assign_names(...)",
         by simp [variable_names, hn]⟩⟩
  | some ns =>
    refine ⟨?_, ?_, ?_⟩
    · intro hc
      exact Option.noConfusion hc
    · intro ns2 hns2
      injection hns2 with hns2
      simp [variable_names, hn, hns2]
    · constructor
      · rintro ⟨e, he⟩
        simp only [variable_names, hn] at he
        exact Except.noConfusion he
      · intro hc
        exact Option.noConfusion hc

/-- Witness for C7: reassigning the same and then a different value. -/
theorem assign_names_write_once_witness :
    _assign_names
        ({ _category := none, _base := none, _names := some ["x"],
           cached_methods := [], _hash_value := -1 } : CategoryObject Nat Nat Nat)
        (some (.single (.str "x"))) none =
      .ok ({ _category := none, _base := none, _names := some ["x"],
             cached_methods := [], _hash_value := -1 } : CategoryObject Nat Nat Nat) ∧
    _assign_names
        ({ _category := none, _base := none, _names := some ["x"],
           cached_methods := [], _hash_value := -1 } : CategoryObject Nat Nat Nat)
        (some (.single (.str "y"))) none =
      .error (.valueError "variable names cannot be changed after object creation.") :=
  ⟨(assign_names_write_once _ ["x"] (.single (.str "x")) ["x"] rfl (by decide)).1 rfl,
   (assign_names_write_once _ ["x"] (.single (.str "y")) ["y"] rfl (by decide)).2.1 (by decide)⟩

/-- Witness for C8 at a fresh object. -/
theorem variable_names_defined_iff_witness :
    variable_names (cinit_state (C := Nat) (B := Nat) (A := Nat)) =
      .error (.valueError "variable names have not yet been set using self._assign_names(...)") :=
  (variable_names_defined_iff cinit_state).1 rfl

/-- Helper: `_refine_category_` never touches the attribute cache. -/
theorem refine_cached {C B A : Type} (join : List C → C)
    (obj : CategoryObject C B A) (cat : CatInput C) :
    (_refine_category_ join obj cat).cached_methods = obj.cached_methods := by
  cases hc : obj._category with
  | none => cases cat <;> simp [_refine_category_, _init_category_, hc]
  | some cur => cases cat <;> simp [_refine_category_, hc]

/-- Helper: a failing `getattr_from_category` leaves the state unchanged,
and can only fail on a cache miss. -/
theorem getattr_error_state {C B A : Type} (table : C → String → Option A)
    (obj : CategoryObject C B A) (name : String) (e : PyErr)
    (h : (getattr_from_category table obj name).1 = .error e) :
    (getattr_from_category table obj name).2 = obj ∧
      dict_get obj.cached_methods name = none := by
  cases hm : dict_get obj.cached_methods name with
  | some attr =>
    exfalso
    simp only [getattr_from_category, hm] at h
    exact Except.noConfusion h
  | none =>
    refine ⟨?_, rfl⟩
    cases hcat : obj._category with
    | none => simp [getattr_from_category, hm, hcat, getattr_from_other_class]
    | some c =>
      cases ht : table c name with
      | some attr =>
        exfalso
        simp only [getattr_from_category, hm, hcat, getattr_from_other_class, ht] at h
        exact Except.noConfusion h
      | none =>
        simp [getattr_from_category, hm, hcat, getattr_from_other_class, ht]

/-- Claim C1: on a `CategoryObject` with category `c` whose class misses
`name` (which is when `__getattr__`, hence `getattr_from_category`, runs)
and whose cache misses `name`: if the category's behavior table supplies a
bound value `v`, the first lookup returns `v` after storing it in the
per-instance cache, and every subsequent lookup returns the cached value
without re-resolving (its result does not depend on the behavior table at
all); if the table does not supply `name`, the lookup fails with
`AttributeError`. -/
theorem getattr_resolves_and_caches {C B A : Type} (table : C → String → Option A)
    (obj : CategoryObject C B A) (c : C) (name : String)
    (hcat : obj._category = some c)
    (hmiss : dict_get obj.cached_methods name = none) :
    (∀ v, table c name = some v →
       getattr_from_category table obj name =
         (.ok v, { obj with cached_methods := dict_set obj.cached_methods name v }) ∧
       dict_get (dict_set obj.cached_methods name v) name = some v ∧
       ∀ table2 : C → String → Option A,
         getattr_from_category table2
             { obj with cached_methods := dict_set obj.cached_methods name v } name =
           (.ok v, { obj with cached_methods := dict_set obj.cached_methods name v })) ∧
    (table c name = none →
       getattr_from_category table obj name =
         (.error (.attributeError ("no attribute " ++ name)), obj)) := by
  constructor
  · intro v hv
    refine ⟨?_, dict_get_set_self _ _ _, ?_⟩
    · simp [getattr_from_category, hmiss, hcat, getattr_from_other_class, hv]
    · intro table2
      simp [getattr_from_category, dict_get_set_self]
  · intro hv
    simp [getattr_from_category, hmiss, hcat, getattr_from_other_class, hv]

/-- Claim C10: when dynamic attribute resolution fails with an
`AttributeError`, the per-instance attribute cache is left unchanged (only
successful resolutions are stored), so a later lookup of the same name
after the category has been refined to one whose table supplies the name
succeeds. -/
theorem getattr_failure_preserves_cache {C B A : Type} (table : C → String → Option A)
    (obj : CategoryObject C B A) (name : String) (e : PyErr)
    (herr : (getattr_from_category table obj name).1 = .error e) :
    (getattr_from_category table obj name).2 = obj ∧
    ∀ (join : List C → C) (cat : CatInput C) (c2 : C) (v : A),
      (_refine_category_ join obj cat)._category = some c2 →
      table c2 name = some v →
      (getattr_from_category table (_refine_category_ join obj cat) name).1 = .ok v := by
  obtain ⟨hstate, hmiss⟩ := getattr_error_state table obj name e herr
  refine ⟨hstate, ?_⟩
  intro join cat c2 v hc2 hv
  have hcache : dict_get (_refine_category_ join obj cat).cached_methods name = none := by
    rw [refine_cached]
    exact hmiss
  simp [getattr_from_category, hcache, hc2, getattr_from_other_class, hv]

/-- Claim C2 (amended): `_refine_category_` does NOT invalidate the
per-instance attribute cache — the cache after a refinement equals the
cache before it, and a binding cached under the broader pre-refinement
category is still served by `getattr_from_category` after the category is
narrowed. -/
theorem refine_category_preserves_cache {C B A : Type} (join : List C → C)
    (obj : CategoryObject C B A) (cat : CatInput C) :
    (_refine_category_ join obj cat).cached_methods = obj.cached_methods ∧
    ∀ (table : C → String → Option A) (name : String) (v : A),
      dict_get obj.cached_methods name = some v →
      getattr_from_category table (_refine_category_ join obj cat) name =
        (.ok v, _refine_category_ join obj cat) := by
  refine ⟨refine_cached join obj cat, ?_⟩
  intro table name v hv
  have hcache : dict_get (_refine_category_ join obj cat).cached_methods name = some v := by
    rw [refine_cached]
    exact hv
  simp [getattr_from_category, hcache]

/-- Counterexample to Claim C2 as stated: a concrete `CategoryObject` with
a nonempty attribute cache still has exactly that cache entry immediately
after `_refine_category_`, so the cache does not "contain no entries" after
a refinement. -/
theorem refine_category_keeps_cache_cex :
    (_refine_category_ (fun l => l.foldl max 0)
        ({ _category := some 1, _base := none, _names := none,
           cached_methods := [("f", 7)], _hash_value := -1 } : CategoryObject Nat Nat Nat)
        (.single 2)).cached_methods = [("f", 7)] := by decide

/-- Claim C9: with an initialized category, refining with `A` and then `B`
yields the same category as refining once with `join([A, B])` applied to
the original category, assuming the stated lattice axiom (associativity of
the external join). -/
theorem refine_twice_eq_refine_join {C B A : Type} (join : List C → C)
    (obj : CategoryObject C B A) (c0 a b : C)
    (hc : obj._category = some c0)
    (hassoc : ∀ x y z : C, join [join [x, y], z] = join [x, join [y, z]]) :
    (_refine_category_ join (_refine_category_ join obj (.single a)) (.single b))._category =
      (_refine_category_ join obj (.single (join [a, b])))._category := by
  simp only [_refine_category_, hc, List.cons_append, List.nil_append]
  exact congrArg some (hassoc c0 a b)

/-- Claim C3: restoring the record produced by `__getstate__`
(`restore_state`, i.e. `__setstate__` on a freshly `__cinit__`-ed instance,
which is how unpickling runs it) reproduces `_category`, `_base` and
`_names` exactly — hence `category()`, `base()` and `variable_names()`
agree — and leaves the attribute cache empty and the hash cache at the
not-yet-computed sentinel `-1`. -/
theorem setstate_getstate_roundtrip {C B A : Type} (join : List C → C)
    (obj : CategoryObject C B A) :
    restore_state (A := A) join (getstate obj) =
      .ok { _category := obj._category, _base := obj._base, _names := obj._names,
            cached_methods := [], _hash_value := -1 } := by
  cases hc : obj._category with
  | none => simp [restore_state, setstate, getstate, cinit_state, hc]
  | some c => simp [restore_state, setstate, getstate, cinit_state, hc]

/-- Claim C4 (amended): `__setstate__` on a record whose version tag is
neither 1 nor 0 succeeds silently, running no restore branch and leaving
the object unchanged; no error of any kind is raised for unknown versions. -/
theorem setstate_unknown_version_noop {C B A : Type} (join : List C → C)
    (obj : CategoryObject C B A) (d : PickleRecord C B) (v : Int)
    (hv : d.version_key = some v) (h1 : v ≠ 1) (h0 : v ≠ 0) :
    setstate join obj d = .ok obj := by
  simp only [setstate, hv, Option.getD_some]
  rw [if_neg h1, if_neg h0]

/-- Counterexample to Claim C4 as stated: restoring a concrete record with
the unknown version tag 2 returns the object unchanged instead of failing
with a `FormatError`-like error. -/
theorem setstate_unknown_version_cex :
    restore_state (A := Nat) (fun l => l.foldl max 0)
        ({ category_key := some (some 1), base_key := some none,
           names_key := some (some ["x"]), version_key := some 2 } : PickleRecord Nat Nat) =
      .ok cinit_state := by decide

/-- Witness for C1 at a concrete table and object. -/
theorem getattr_resolves_and_caches_witness :
    getattr_from_category
        (fun c n => if c = 1 ∧ n = "f" then some 5 else none)
        ({ _category := some 1, _base := none, _names := none,
           cached_methods := [], _hash_value := -1 } : CategoryObject Nat Nat Nat) "f" =
      (.ok 5, { _category := some 1, _base := none, _names := none,
                cached_methods := [("f", 5)], _hash_value := -1 }) :=
  ((getattr_resolves_and_caches
      (fun c n => if c = 1 ∧ n = "f" then some 5 else none)
      ({ _category := some 1, _base := none, _names := none,
         cached_methods := [], _hash_value := -1 } : CategoryObject Nat Nat Nat)
      1 "f" rfl rfl).1 5 (by decide)).1

/-- Witness for C10 at a concrete table and object. -/
theorem getattr_failure_preserves_cache_witness :
    (getattr_from_category (fun c n => if c = 2 ∧ n = "f" then some 5 else none)
        ({ _category := some 1, _base := none, _names := none,
           cached_methods := [], _hash_value := -1 } : CategoryObject Nat Nat Nat) "f").2 =
      ({ _category := some 1, _base := none, _names := none,
         cached_methods := [], _hash_value := -1 } : CategoryObject Nat Nat Nat) ∧
    (getattr_from_category (fun c n => if c = 2 ∧ n = "f" then some 5 else none)
        (_refine_category_ (fun l => l.foldl max 0)
          ({ _category := some 1, _base := none, _names := none,
             cached_methods := [], _hash_value := -1 } : CategoryObject Nat Nat Nat)
          (.single 2)) "f").1 = .ok 5 := by
  have h := getattr_failure_preserves_cache
    (fun c n => if c = 2 ∧ n = "f" then some 5 else none)
    ({ _category := some 1, _base := none, _names := none,
       cached_methods := [], _hash_value := -1 } : CategoryObject Nat Nat Nat)
    "f" (.attributeError ("no attribute " ++ "f")) (by decide)
  exact ⟨h.1, h.2 (fun l => l.foldl max 0) (.single 2) 2 5 (by decide) (by decide)⟩

/-- Witness for C2 (amended) at a concrete cached binding. -/
theorem refine_category_preserves_cache_witness :
    getattr_from_category (fun _ _ => (none : Option Nat))
        (_refine_category_ (fun l => l.foldl max 0)
          ({ _category := some 1, _base := none, _names := none,
             cached_methods := [("f", 7)], _hash_value := -1 } : CategoryObject Nat Nat Nat)
          (.single 2)) "f" =
      (.ok 7,
       _refine_category_ (fun l => l.foldl max 0)
          ({ _category := some 1, _base := none, _names := none,
             cached_methods := [("f", 7)], _hash_value := -1 } : CategoryObject Nat Nat Nat)
          (.single 2)) :=
  (refine_category_preserves_cache (fun l => l.foldl max 0)
      ({ _category := some 1, _base := none, _names := none,
         cached_methods := [("f", 7)], _hash_value := -1 } : CategoryObject Nat Nat Nat)
      (.single 2)).2 (fun _ _ => none) "f" 7 (by decide)

/-- Witness for C9 with the join `foldl max 0` on `Nat`. -/
theorem refine_twice_eq_refine_join_witness :
    (_refine_category_ (fun l => l.foldl max 0)
        (_refine_category_ (fun l => l.foldl max 0)
          ({ _category := some 1, _base := none, _names := none,
             cached_methods := [], _hash_value := -1 } : CategoryObject Nat Nat Nat)
          (.single 3)) (.single 5))._category =
      (_refine_category_ (fun l => l.foldl max 0)
        ({ _category := some 1, _base := none, _names := none,
           cached_methods := [], _hash_value := -1 } : CategoryObject Nat Nat Nat)
        (.single ((fun (l : List Nat) => l.foldl max 0) [3, 5])))._category :=
  refine_twice_eq_refine_join (fun l => l.foldl max 0)
    ({ _category := some 1, _base := none, _names := none,
       cached_methods := [], _hash_value := -1 } : CategoryObject Nat Nat Nat)
    1 3 5 rfl (by intro x y z; simp [List.foldl, Nat.zero_max]; omega)

/-- Witness for C4 (amended) at version tag 2. -/
theorem setstate_unknown_version_noop_witness :
    setstate (fun l => l.foldl max 0)
        (cinit_state (C := Nat) (B := Nat) (A := Nat))
        ({ category_key := some (some 1), base_key := some none,
           names_key := some (some ["x"]), version_key := some 2 } : PickleRecord Nat Nat) =
      .ok cinit_state :=
  setstate_unknown_version_noop (fun l => l.foldl max 0) cinit_state
    ({ category_key := some (some 1), base_key := some none,
       names_key := some (some ["x"]), version_key := some 2 } : PickleRecord Nat Nat)
    2 rfl (by decide) (by decide)
